import Mathlib

/-
Verification of the MallocMe explicit-free-list allocator (src/malloc/mm.c).

The heap is modelled as byte-addressed memory (`Nat → Nat`, values kept
below 256) with the heap starting at address 0, exactly as laid out by
memlib: `mem_sbrk` hands out addresses `[old_brk, old_brk + incr)` and
fails (returns -1, modelled as `none`) when the configured maximum heap
size would be exceeded.  All C macros (GET, PUT, GET_SIZE, HDRP, FTRP,
NEXT_BLKP, PREV_BLKP, GET_ADDR, GET_ADDR_INDEX, ALIGN, PACK) and all
functions of mm.c are translated one to one; loops (find_fit, the
checker walks) take explicit fuel.  `unsigned int` stores truncate to 32
bits (PUT writes the 4 low-order little-endian bytes); `size_t`
arithmetic wraps at 2^64 where the C expression can wrap.
-/

set_option maxRecDepth 10000

namespace MallocMe

/-- Read one byte of memory (memory values are kept as residues mod 256). -/
def getByte (m : Nat → Nat) (p : Nat) : Nat := m p % 256

/-- Write one byte of memory. -/
def putByte (m : Nat → Nat) (p v : Nat) : Nat → Nat :=
  fun q => if q = p then v % 256 else m q

/-- GET(p): `*(unsigned int *)(p)` — a 32-bit little-endian load. -/
def GET (m : Nat → Nat) (p : Nat) : Nat :=
  getByte m p + 256 * getByte m (p + 1) + 65536 * getByte m (p + 2) +
    16777216 * getByte m (p + 3)

/-- PUT(p, val): `*(unsigned int *)(p) = val` — a 32-bit little-endian store
(the cast to `unsigned int` truncates `val` to 32 bits). -/
def PUT (m : Nat → Nat) (p v : Nat) : Nat → Nat :=
  putByte (putByte (putByte (putByte m p v) (p + 1) (v / 256)) (p + 2) (v / 65536))
    (p + 3) (v / 16777216)

/-- PACK(size, alloc) = `(size) | (alloc)`. -/
def PACK (size alloc : Nat) : Nat := size ||| alloc

/-- GET_SIZE(p) = `GET(p) & ~0x7`: clear the low 3 bits. -/
def GET_SIZE (m : Nat → Nat) (p : Nat) : Nat := GET m p / 8 * 8

/-- GET_ALLOC(p) = `GET(p) & 0x1`. -/
def GET_ALLOC (m : Nat → Nat) (p : Nat) : Nat := GET m p % 2

/-- WSIZE: word and header/footer size in bytes. -/
def WSIZE : Nat := 4

/-- DSIZE: doubleword size in bytes. -/
def DSIZE : Nat := 8

/-- CHUNKSIZE = 1<<8: heap extension quantum in bytes. -/
def CHUNKSIZE : Nat := 256

/-- HDRP(bp) = `(char *)(bp) - WSIZE`. -/
def HDRP (bp : Nat) : Nat := bp - 4

/-- FTRP(bp) = `(char *)(bp) + GET_SIZE(HDRP(bp)) - DSIZE`. -/
def FTRP (m : Nat → Nat) (bp : Nat) : Nat := bp + GET_SIZE m (bp - 4) - 8

/-- NEXT_BLKP(bp) = `(char *)(bp) + GET_SIZE((char *)(bp) - WSIZE)`. -/
def NEXT_BLKP (m : Nat → Nat) (bp : Nat) : Nat := bp + GET_SIZE m (bp - 4)

/-- PREV_BLKP(bp) = `(char *)(bp) - GET_SIZE((char *)(bp) - DSIZE)`. -/
def PREV_BLKP (m : Nat → Nat) (bp : Nat) : Nat := bp - GET_SIZE m (bp - 8)

/-- ALIGN(size) = `((size + 15) & ~0x7)` computed on a 64-bit `size_t`:
the sum wraps mod 2^64 and the mask clears the low 3 bits. -/
def ALIGN (size : Nat) : Nat := (size + 15) % 2 ^ 64 / 8 * 8

/-- `size_t` subtraction `a - b` (wraps mod 2^64); used where mm.c
subtracts sizes that are not guarded by a comparison (`place`). -/
def sub64 (a b : Nat) : Nat := (a + (2 ^ 64 - b % 2 ^ 64)) % 2 ^ 64

/-- The allocator state: memory contents, current heap break (`mem_brk`,
as bytes obtained so far starting from address 0), the maximum heap size
the backing provider will grant, and the globals `heap_listp` and
`freelist` of mm.c. -/
structure Heap where
  mem : Nat → Nat
  size : Nat
  budget : Nat
  heap_listp : Nat
  freelist : Nat

/-- memlib `mem_sbrk(incr)`: returns the old break (address of the first
new byte) and grows the heap, or fails when the maximum is exceeded. -/
def mem_sbrk (h : Heap) (incr : Nat) : Option (Nat × Heap) :=
  if h.size + incr ≤ h.budget then some (h.size, { h with size := h.size + incr })
  else none

/-- addToFreeList(bp), mm.c lines 166-177: push `bp` on the head of the
offset-linked free list.  GET_ADDR_INDEX(bp) is `bp - heap_listp`,
GET_ADDR(i) is `heap_listp + i`. -/
def addToFreeList (h : Heap) (bp : Nat) : Heap :=
  let m := PUT h.mem bp 0
  let m := PUT m (bp + 4) h.freelist
  let m := if h.freelist ≠ 0 then PUT m (h.heap_listp + h.freelist) (bp - h.heap_listp) else m
  { h with mem := m, freelist := bp - h.heap_listp }

/-- removeFromFreeList(bp), mm.c lines 184-203: unlink `bp`, four cases
on whether its stored prev/next offsets are zero. -/
def removeFromFreeList (h : Heap) (bp : Nat) : Heap :=
  let prev := GET h.mem bp
  let next := GET h.mem (bp + 4)
  if prev ≠ 0 ∧ next ≠ 0 then
    { h with mem := PUT (PUT h.mem (h.heap_listp + prev + 4) next) (h.heap_listp + next) prev }
  else if prev = 0 ∧ next ≠ 0 then
    { h with freelist := next, mem := PUT h.mem (h.heap_listp + next) 0 }
  else if prev ≠ 0 ∧ next = 0 then
    { h with mem := PUT h.mem (h.heap_listp + prev + 4) 0 }
  else
    { h with freelist := 0 }

/-- coalesce(bp), mm.c lines 207-243: boundary-tag merge with the
physical neighbours, returning the (possibly moved) block pointer.
Reads and writes happen in exactly the source order; in particular the
`size +=` additions in cases 2 and 3 re-read memory after the
removeFromFreeList call, and FTRP re-reads the just-written header. -/
def coalesce (h : Heap) (bp : Nat) : Nat × Heap :=
  let prev_alloc := GET_ALLOC h.mem (FTRP h.mem (PREV_BLKP h.mem bp))
  let next_alloc := GET_ALLOC h.mem (HDRP (NEXT_BLKP h.mem bp))
  let size := GET_SIZE h.mem (HDRP bp)
  if prev_alloc ≠ 0 ∧ next_alloc ≠ 0 then
    (bp, h)
  else if prev_alloc ≠ 0 ∧ next_alloc = 0 then
    let h1 := removeFromFreeList h (NEXT_BLKP h.mem bp)
    let size1 := size + GET_SIZE h1.mem (HDRP (NEXT_BLKP h1.mem bp))
    let m := PUT h1.mem (HDRP bp) (PACK size1 0)
    let m := PUT m (FTRP m bp) (PACK size1 0)
    (bp, { h1 with mem := m })
  else if prev_alloc = 0 ∧ next_alloc ≠ 0 then
    let bp1 := PREV_BLKP h.mem bp
    let h1 := removeFromFreeList h bp1
    let size1 := size + GET_SIZE h1.mem (HDRP bp1)
    let m := PUT h1.mem (HDRP bp1) (PACK size1 0)
    let m := PUT m (FTRP m bp1) (PACK size1 0)
    (bp1, { h1 with mem := m })
  else
    let size1 := size + GET_SIZE h.mem (HDRP (PREV_BLKP h.mem bp)) +
      GET_SIZE h.mem (FTRP h.mem (NEXT_BLKP h.mem bp))
    let h1 := removeFromFreeList h (NEXT_BLKP h.mem bp)
    let bp1 := PREV_BLKP h1.mem bp
    let h2 := removeFromFreeList h1 bp1
    let m := PUT h2.mem (HDRP bp1) (PACK size1 0)
    let m := PUT m (FTRP m bp1) (PACK size1 0)
    (bp1, { h2 with mem := m })

/-- The even-word rounding of extend_heap, mm.c line 125:
`size = (words % 2) ? (words+1) * WSIZE : words * WSIZE`. -/
def sbrkBytes (words : Nat) : Nat :=
  if words % 2 = 1 then (words + 1) * 4 else words * 4

/-- The five stores of extend_heap, mm.c lines 130-135: free-block
header and footer, new epilogue header, and zeroed link words. -/
def extendWrite (m : Nat → Nat) (bp size : Nat) : Nat → Nat :=
  let m := PUT m (HDRP bp) (PACK size 0)
  let m := PUT m (FTRP m bp) (PACK size 0)
  let m := PUT m (HDRP (NEXT_BLKP m bp)) (PACK 0 1)
  let m := PUT m bp 0
  PUT m (bp + 4) 0

/-- extend_heap(words), mm.c lines 119-139. -/
def extend_heap (h : Heap) (words : Nat) : Option (Nat × Heap) :=
  let size := sbrkBytes words
  match mem_sbrk h size with
  | none => none
  | some (bp, h1) =>
    let h2 := { h1 with mem := extendWrite h1.mem bp size }
    let (bp1, h3) := coalesce h2 bp
    some (bp1, addToFreeList h3 bp1)

/-- free(bp), mm.c lines 145-160 (`bp == 0` is a no-op). -/
def free (h : Heap) (bp : Nat) : Heap :=
  if bp = 0 then h
  else
    let size := GET_SIZE h.mem (HDRP bp)
    let m := PUT h.mem (HDRP bp) (PACK size 0)
    let m := PUT m (FTRP m bp) (PACK size 0)
    let m := PUT m bp 0
    let m := PUT m (bp + 4) 0
    let (bp1, h1) := coalesce { h with mem := m } bp
    addToFreeList h1 bp1

/-- The free-list scan of find_fit, mm.c lines 380-386, with fuel for
the unbounded `while`. -/
def find_fit_loop (fuel : Nat) (h : Heap) (asize val : Nat) : Option Nat :=
  match fuel with
  | 0 => none
  | k + 1 =>
    if val = 0 then none
    else
      let ptr := h.heap_listp + val
      if asize ≤ GET_SIZE h.mem (HDRP ptr) then some ptr
      else find_fit_loop k h asize (GET h.mem (ptr + 4))

/-- find_fit(asize), mm.c lines 374-388: first fit over the free list. -/
def find_fit (fuel : Nat) (h : Heap) (asize : Nat) : Option Nat :=
  find_fit_loop fuel h asize h.freelist

/-- place(bp, asize), mm.c lines 349-369: unlink, then either split off
the remainder (when it is at least 2*DSIZE) or consume the whole block.
`csize - asize` is `size_t` arithmetic, hence `sub64`. -/
def place (h : Heap) (bp asize : Nat) : Heap :=
  let csize := GET_SIZE h.mem (HDRP bp)
  let h1 := removeFromFreeList h bp
  if 16 ≤ sub64 csize asize then
    let m := PUT h1.mem (HDRP bp) (PACK asize 1)
    let m := PUT m (FTRP m bp) (PACK asize 1)
    let nextbp := NEXT_BLKP m bp
    let m := PUT m (HDRP nextbp) (PACK (sub64 csize asize) 0)
    let m := PUT m (FTRP m nextbp) (PACK (sub64 csize asize) 0)
    addToFreeList { h1 with mem := m } nextbp
  else
    let m := PUT h1.mem (HDRP bp) (PACK csize 1)
    let m := PUT m (FTRP m bp) (PACK csize 1)
    { h1 with mem := m }

/-- The size adjustment of malloc, mm.c lines 329-332. -/
def mallocAdjust (size : Nat) : Nat :=
  if size ≤ 8 then 16 else ALIGN size

/-- malloc(size), mm.c lines 319-344. -/
def malloc (fuel : Nat) (h : Heap) (size : Nat) : Option Nat × Heap :=
  if size = 0 then (none, h)
  else
    let asize := mallocAdjust size
    match find_fit fuel h asize with
    | some bp => (some bp, place h bp asize)
    | none =>
      let extendsize := max asize CHUNKSIZE
      match extend_heap h (extendsize / 4) with
      | none => (none, h)
      | some (bp, h1) => (some bp, place h1 bp asize)

/-- memset(p, c, n): byte-wise store, used by calloc. -/
def memset (m : Nat → Nat) (p c n : Nat) : Nat → Nat :=
  match n with
  | 0 => m
  | k + 1 => memset (putByte m p c) (p + 1) c k

/-- memcpy(dst, src, n): byte-wise forward copy, used by realloc. -/
def memcpy (m : Nat → Nat) (dst src n : Nat) : Nat → Nat :=
  match n with
  | 0 => m
  | k + 1 => memcpy (putByte m dst (m src)) (dst + 1) (src + 1) k

/-- realloc(ptr, size), mm.c lines 247-301.  The final `return 0` of the
source (reached only if neither `oldsize >= asize` nor `asize > oldsize`
held) is kept as the trailing `(none, h)`. -/
def realloc (fuel : Nat) (h : Heap) (ptr size : Nat) : Option Nat × Heap :=
  if ptr = 0 then malloc fuel h size
  else if size = 0 then (none, free h ptr)
  else
    let oldsize := GET_SIZE h.mem (HDRP ptr)
    let asize := ALIGN size
    if asize ≤ oldsize then
      if oldsize - asize < 16 then (some ptr, h)
      else
        let m := PUT h.mem (HDRP ptr) (PACK asize 1)
        let m := PUT m (FTRP m ptr) (PACK asize 1)
        let newptr := NEXT_BLKP m ptr
        let m := PUT m (HDRP newptr) (PACK (oldsize - asize) 0)
        let m := PUT m (FTRP m newptr) (PACK (oldsize - asize) 0)
        let m := PUT m newptr 0
        let m := PUT m (newptr + 4) 0
        let (_, h1) := coalesce { h with mem := m } newptr
        (some ptr, addToFreeList h1 newptr)
    else if oldsize < asize then
      match malloc fuel h asize with
      | (none, h1) => (none, h1)
      | (some newptr, h1) =>
        let m := memcpy h1.mem newptr ptr oldsize
        let h2 := free { h1 with mem := m } ptr
        (some newptr, h2)
    else (none, h)

/-- calloc(nmemb, size), mm.c lines 305-314: `bytes = nmemb * size` is
`size_t` multiplication (wraps mod 2^64, no overflow check). -/
def calloc (fuel : Nat) (h : Heap) (nmemb size : Nat) : Option Nat × Heap :=
  let bytes := nmemb * size % 2 ^ 64
  match malloc fuel h bytes with
  | (none, h1) => (none, h1)
  | (some newptr, h1) => (some newptr, { h1 with mem := memset h1.mem newptr 0 bytes })

/-- mm_init, mm.c lines 98-114: pad word, prologue header/footer,
epilogue header, `heap_listp += 2*WSIZE`, `freelist = 0`, then extend by
CHUNKSIZE bytes.  The heap base sits at address 0 and the backing
provider grants at most `budget` bytes over memory `mem0`. -/
def mm_init (budget : Nat) (mem0 : Nat → Nat) : Option Heap :=
  let h0 : Heap := { mem := mem0, size := 0, budget := budget, heap_listp := 0, freelist := 0 }
  match mem_sbrk h0 16 with
  | none => none
  | some (p, h1) =>
    let m := PUT h1.mem p 0
    let m := PUT m (p + 4) (PACK 8 1)
    let m := PUT m (p + 8) (PACK 8 1)
    let m := PUT m (p + 12) (PACK 0 1)
    let h2 := { h1 with mem := m, heap_listp := p + 8, freelist := 0 }
    match extend_heap h2 (CHUNKSIZE / 4) with
    | none => none
    | some (_, h3) => some h3

/-- checkblock(bp), mm.c lines 421-439: per-block diagnostics.
`mem_heap_hi()` is `heap base + size - 1`, i.e. `h.size - 1` here.
Diagnostic printfs are modelled as short message codes. -/
def checkblock (h : Heap) (bp : Nat) : List String :=
  (if h.size - 1 - 3 < bp then ["out of bounds"] else []) ++
  (if bp % 8 ≠ 0 then ["not aligned"] else []) ++
  (if GET h.mem (HDRP bp) ≠ GET h.mem (FTRP h.mem bp) then ["header footer mismatch"] else []) ++
  (if GET_ALLOC h.mem (HDRP bp) = 0 ∧
      (GET_ALLOC h.mem (HDRP (PREV_BLKP h.mem bp)) = 0 ∨
       GET_ALLOC h.mem (HDRP (NEXT_BLKP h.mem bp)) = 0) then ["not coalesced"] else [])

/-- The `while( GET(a + WSIZE) != 0)` walk of checkFreeList, mm.c lines
486-502: per-node diagnostics plus the counter `i` (which starts at 1
and is incremented once per iteration), with fuel for the unbounded
loop.  Returns the accumulated messages and the final value of `i`. -/
def checkFreeListLoop (fuel : Nat) (h : Heap) (a i : Nat) : List String × Nat :=
  match fuel with
  | 0 => ([], i)
  | k + 1 =>
    if GET h.mem (a + 4) = 0 then ([], i)
    else
      let m1 := if GET_ALLOC h.mem (HDRP a) = 1 then ["allocated block in freelist"] else []
      let pa := h.heap_listp + GET h.mem a
      let na := h.heap_listp + GET h.mem (a + 4)
      let m2 :=
        if pa < 0 ∨ h.size - 1 < pa ∨ na < 0 ∨ h.size - 1 < na then
          ["freelist out of bounds"]
        else if GET h.mem na ≠ a - h.heap_listp then
          ["bad link symmetry"]
        else []
      let (rest, i1) := checkFreeListLoop k h (h.heap_listp + GET h.mem (a + 4)) (i + 1)
      (m1 ++ m2 ++ rest, i1)

/-- The physical free-block count `j` of checkFreeList, mm.c lines
503-506: walk blocks from heap_listp until the zero-size epilogue,
counting blocks whose header says free. -/
def heapFreeCountLoop (fuel : Nat) (h : Heap) (a j : Nat) : Nat :=
  match fuel with
  | 0 => j
  | k + 1 =>
    if GET_SIZE h.mem (HDRP a) = 0 then j
    else heapFreeCountLoop k h (NEXT_BLKP h.mem a)
      (if GET_ALLOC h.mem (HDRP a) = 0 then j + 1 else j)

/-- checkFreeList(), mm.c lines 476-513.  An empty free list prints
"empty freelist" and returns before any reconciliation; otherwise the
list walk computes `i`, the physical walk computes `j`, and the count
reconciliation diagnostic is printed iff `i - 1 != j`. -/
def checkFreeList (fuel : Nat) (h : Heap) : List String :=
  if h.freelist = 0 then ["empty freelist"]
  else
    let a := h.heap_listp + h.freelist
    let m0 := if GET h.mem a ≠ 0 then ["bad list head"] else []
    let (msgs, i) := checkFreeListLoop fuel h a 1
    let j := heapFreeCountLoop fuel h h.heap_listp 0
    m0 ++ msgs ++ (if i - 1 ≠ j then ["free block count mismatch"] else [])

/-- The physical walk of mm_checkheap, mm.c line 457, with fuel;
returns the per-block diagnostics and the final block pointer. -/
def checkheapLoop (fuel : Nat) (h : Heap) (bp : Nat) : List String × Nat :=
  match fuel with
  | 0 => ([], bp)
  | k + 1 =>
    if GET_SIZE h.mem (HDRP bp) = 0 then ([], bp)
    else
      let msgs := checkblock h bp
      let (rest, last) := checkheapLoop k h (NEXT_BLKP h.mem bp)
      (msgs ++ rest, last)

/-- mm_checkheap(verbose), mm.c lines 444-472, with printblock output
omitted (it is informational only): prologue check, per-block checks,
checkFreeList, epilogue checks. -/
def mm_checkheap (fuel : Nat) (h : Heap) : List String :=
  (if GET_SIZE h.mem (HDRP h.heap_listp) ≠ 8 ∨ GET_ALLOC h.mem (HDRP h.heap_listp) = 0 then
    ["bad prologue header"] else []) ++
  checkblock h h.heap_listp ++
  (let (msgs, last) := checkheapLoop fuel h h.heap_listp
   msgs ++ checkFreeList fuel h ++
   (if last ≠ h.size then ["wrong epilogue pointer"] else []) ++
   (if GET_SIZE h.mem (HDRP last) ≠ 0 ∨ GET_ALLOC h.mem (HDRP last) = 0 then
     ["bad epilogue header"] else []))

/-- The number of nodes reached by walking the free list from
`freelist` via the stored next offsets (the quantity the specification
calls the free-list length), with fuel. -/
def freelistLengthLoop (fuel : Nat) (h : Heap) (val n : Nat) : Nat :=
  match fuel with
  | 0 => n
  | k + 1 =>
    if val = 0 then n
    else freelistLengthLoop k h (GET h.mem (h.heap_listp + val + 4)) (n + 1)

/-- Free-list length measured from the head. -/
def freelistLength (fuel : Nat) (h : Heap) : Nat :=
  freelistLengthLoop fuel h h.freelist 0

/-! ### Fixed states used by the concrete scenarios -/

/-- All-zero initial memory used by the concrete scenarios. -/
def zeroMem : Nat → Nat := fun _ => 0

/-- A default heap, used only to destruct `Option Heap` results. -/
def defaultHeap : Heap :=
  { mem := zeroMem, size := 0, budget := 0, heap_listp := 0, freelist := 0 }

/-- The heap produced by `init()` over zeroed memory with a 4096-byte
provider: pad+prologue+epilogue (16 bytes) plus one free 256-byte block. -/
def initHeap : Heap := (mm_init 4096 zeroMem).getD defaultHeap

/-- The heap produced by `init()` when the provider grants exactly the
272 bytes that initialization consumes, so that every later `mem_sbrk`
fails. -/
def tightHeap : Heap := (mm_init 272 zeroMem).getD defaultHeap

/-- Scenario: `p = allocate(100)` right after `init()` — yields the
payload pointer 16 in a 112-byte block, with a 144-byte free remainder
at 128. -/
def s4a : Option Nat × Heap := malloc 50 initHeap 100

/-- Scenario: `q = resize(p, 50)` after `s4a`. -/
def s4b : Option Nat × Heap := realloc 50 s4a.2 16 50

/-- Scenario for zero_allocate: `a = allocate(8)` after `init()`. -/
def s7a : Option Nat × Heap := malloc 50 initHeap 8

/-- Scenario: `b = allocate(8)` after `s7a`. -/
def s7b : Option Nat × Heap := malloc 50 s7a.2 8

/-- Scenario: `free(a)` after `s7b` — puts the 16-byte block at 16 on
the free list with a nonzero next offset (40). -/
def s7f : Heap := free s7b.2 16

/-- Scenario: `c = zero_allocate(1, 4)` after `s7f` — reuses the block
at 16 and zeroes only 4 bytes. -/
def s7c : Option Nat × Heap := calloc 50 s7f 1 4

/-- Scenario for resize round-trip: `p = allocate(100)` after `init()`. -/
def s8a : Option Nat × Heap := malloc 50 initHeap 100

/-- Scenario for C2 (extension path): state after the five stores of
extend_heap when `allocate(2000)` misses the free list on `initHeap`. -/
def c2ext : Heap := { initHeap with size := initHeap.size + max (mallocAdjust 2000) CHUNKSIZE, mem := extendWrite initHeap.mem initHeap.size (max (mallocAdjust 2000) CHUNKSIZE) }

/-- Scenario for C2: the coalesce result in that extension. -/
def c2h3 : Heap := (coalesce c2ext initHeap.size).2

/-- Scenario for C9: `p = allocate(100)` after `init()`. -/
def s9a : Option Nat × Heap := malloc 50 initHeap 100

/-- Scenario for C9 (grow path of `resize(p, 200)`): state after the
five stores of extend_heap inside the internal `allocate(ALIGN 200)`. -/
def c9ext : Heap := { s9a.2 with size := s9a.2.size + max (mallocAdjust (ALIGN 200)) CHUNKSIZE, mem := extendWrite s9a.2.mem s9a.2.size (max (mallocAdjust (ALIGN 200)) CHUNKSIZE) }

/-- Scenario for C9: the coalesce result in that extension. -/
def c9h3 : Heap := (coalesce c9ext s9a.2.size).2

/-- C1 trace, step 1: `allocate(2^64 - 15)` after `init()`.  ALIGN wraps
to 0, find_fit accepts the head block for a 0-byte request, and place
splits with asize 0 — its footer store lands at `bp - 8` and overwrites
the prologue footer with PACK(0, 1). -/
def c1s1 : Option Nat × Heap := malloc 50 initHeap (2 ^ 64 - 15)

/-- C1 trace, step 2: `a = allocate(40)` — block of 48 bytes at 16. -/
def c1s2 : Option Nat × Heap := malloc 50 c1s1.2 40

/-- C1 trace, step 3: `b = allocate(40)` — block of 48 bytes at 64. -/
def c1s3 : Option Nat × Heap := malloc 50 c1s2.2 40

/-- C1 trace, step 4: `free(a)`.  Because the prologue footer was
clobbered, PREV_BLKP(a) = a and coalesce case 3 merges the block with
itself into a 96-byte free block covering `a` and the still-allocated
`b`, physically adjacent to the free block at 112. -/
def c1s4 : Heap := free c1s3.2 16

/-! ### Byte- and word-level laws of GET/PUT -/

theorem getByte_putByte_self (m : Nat → Nat) (p v : Nat) :
    getByte (putByte m p v) p = v % 256 := by
  unfold getByte putByte
  rw [if_pos rfl]
  omega

theorem getByte_putByte_ne (m : Nat → Nat) (p v q : Nat) (h : q ≠ p) :
    getByte (putByte m p v) q = getByte m q := by
  simp [getByte, putByte, h]

theorem getByte_lt (m : Nat → Nat) (p : Nat) : getByte m p < 256 :=
  Nat.mod_lt _ (by omega)

theorem GET_lt (m : Nat → Nat) (p : Nat) : GET m p < 2 ^ 32 := by
  have h0 := getByte_lt m p
  have h1 := getByte_lt m (p + 1)
  have h2 := getByte_lt m (p + 2)
  have h3 := getByte_lt m (p + 3)
  unfold GET
  omega

theorem GET_PUT_self (m : Nat → Nat) (p v : Nat) :
    GET (PUT m p v) p = v % 2 ^ 32 := by
  unfold GET PUT
  rw [getByte_putByte_ne _ _ _ _ (by omega), getByte_putByte_ne _ _ _ _ (by omega),
    getByte_putByte_ne _ _ _ _ (by omega), getByte_putByte_self]
  rw [getByte_putByte_ne _ _ _ _ (by omega), getByte_putByte_ne _ _ _ _ (by omega),
    getByte_putByte_self]
  rw [getByte_putByte_ne _ _ _ _ (by omega), getByte_putByte_self]
  rw [getByte_putByte_self]
  omega

theorem GET_PUT_out (m : Nat → Nat) (p v q : Nat) (h : p + 4 ≤ q ∨ q + 4 ≤ p) :
    GET (PUT m p v) q = GET m q := by
  unfold GET PUT
  rw [getByte_putByte_ne _ _ _ _ (by omega), getByte_putByte_ne _ _ _ _ (by omega),
    getByte_putByte_ne _ _ _ _ (by omega), getByte_putByte_ne _ _ _ _ (by omega),
    getByte_putByte_ne _ _ _ _ (by omega), getByte_putByte_ne _ _ _ _ (by omega),
    getByte_putByte_ne _ _ _ _ (by omega), getByte_putByte_ne _ _ _ _ (by omega),
    getByte_putByte_ne _ _ _ _ (by omega), getByte_putByte_ne _ _ _ _ (by omega),
    getByte_putByte_ne _ _ _ _ (by omega), getByte_putByte_ne _ _ _ _ (by omega),
    getByte_putByte_ne _ _ _ _ (by omega), getByte_putByte_ne _ _ _ _ (by omega),
    getByte_putByte_ne _ _ _ _ (by omega), getByte_putByte_ne _ _ _ _ (by omega)]

theorem GET_SIZE_PUT_out (m : Nat → Nat) (p v q : Nat) (h : p + 4 ≤ q ∨ q + 4 ≤ p) :
    GET_SIZE (PUT m p v) q = GET_SIZE m q := by
  unfold GET_SIZE
  rw [GET_PUT_out m p v q h]

theorem GET_ALLOC_PUT_out (m : Nat → Nat) (p v q : Nat) (h : p + 4 ≤ q ∨ q + 4 ≤ p) :
    GET_ALLOC (PUT m p v) q = GET_ALLOC m q := by
  unfold GET_ALLOC
  rw [GET_PUT_out m p v q h]

theorem lor_one_of_even (s : Nat) (h : s % 2 = 0) : s ||| 1 = s + 1 := by
  apply Nat.eq_of_testBit_eq
  intro i
  rw [Nat.testBit_lor]
  cases i with
  | zero =>
    simp [Nat.testBit_zero]
    omega
  | succ j =>
    have h1 : Nat.testBit 1 (j + 1) = false := by
      simp [Nat.testBit_succ]
    have h2 : (s + 1) / 2 = s / 2 := by omega
    rw [h1, Bool.or_false, Nat.testBit_succ, Nat.testBit_succ, h2]

theorem PACK_zero (s : Nat) : PACK s 0 = s := by simp [PACK]

theorem PACK_one (s : Nat) (h : 8 ∣ s) : PACK s 1 = s + 1 := by
  unfold PACK
  exact lor_one_of_even s (by omega)

theorem GET_SIZE_PUT_pack (m : Nat → Nat) (p s a : Nat)
    (h8 : 8 ∣ s) (h32 : s < 2 ^ 32) (ha : a ≤ 1) :
    GET_SIZE (PUT m p (PACK s a)) p = s := by
  have hp : PACK s a = s + a := by
    match a, ha with
    | 0, _ => exact PACK_zero s
    | 1, _ => exact PACK_one s h8
  unfold GET_SIZE
  rw [hp, GET_PUT_self]
  omega

theorem GET_ALLOC_PUT_pack (m : Nat → Nat) (p s a : Nat)
    (ha : a ≤ 1) (h8 : 8 ∣ s) :
    GET_ALLOC (PUT m p (PACK s a)) p = a := by
  have hp : PACK s a = s + a := by
    match a, ha with
    | 0, _ => exact PACK_zero s
    | 1, _ => exact PACK_one s h8
  unfold GET_ALLOC
  rw [hp, GET_PUT_self]
  omega

theorem GET_SIZE_dvd (m : Nat → Nat) (p : Nat) : 8 ∣ GET_SIZE m p := by
  unfold GET_SIZE
  omega

theorem GET_SIZE_lt (m : Nat → Nat) (p : Nat) : GET_SIZE m p < 2 ^ 32 := by
  have := GET_lt m p
  unfold GET_SIZE
  omega

theorem sub64_eq_sub (a b : Nat) (hb : b ≤ a) (ha : a < 2 ^ 64) :
    sub64 a b = a - b := by
  unfold sub64
  have hb64 : b % 2 ^ 64 = b := Nat.mod_eq_of_lt (by omega)
  rw [hb64]
  omega

/-! ### Field-preservation laws of the list operations -/

theorem removeFromFreeList_heap_listp (h : Heap) (bp : Nat) :
    (removeFromFreeList h bp).heap_listp = h.heap_listp := by
  unfold removeFromFreeList
  dsimp only
  repeat' split
  all_goals rfl

theorem removeFromFreeList_size (h : Heap) (bp : Nat) :
    (removeFromFreeList h bp).size = h.size := by
  unfold removeFromFreeList
  dsimp only
  repeat' split
  all_goals rfl

theorem removeFromFreeList_budget (h : Heap) (bp : Nat) :
    (removeFromFreeList h bp).budget = h.budget := by
  unfold removeFromFreeList
  dsimp only
  repeat' split
  all_goals rfl

theorem addToFreeList_heap_listp (h : Heap) (bp : Nat) :
    (addToFreeList h bp).heap_listp = h.heap_listp := rfl

theorem addToFreeList_size (h : Heap) (bp : Nat) :
    (addToFreeList h bp).size = h.size := rfl

theorem addToFreeList_budget (h : Heap) (bp : Nat) :
    (addToFreeList h bp).budget = h.budget := rfl


/-! ### Supporting lemmas for the claim theorems -/

theorem malloc_extend_fail (fuel : Nat) (h : Heap) (n : Nat) (hn : n ≠ 0)
    (hff : find_fit fuel h (mallocAdjust n) = none)
    (hsb : h.budget < h.size + sbrkBytes (max (mallocAdjust n) CHUNKSIZE / 4)) :
    malloc fuel h n = (none, h) := by
  unfold malloc
  rw [if_neg hn]
  dsimp only
  rw [hff]
  unfold extend_heap mem_sbrk
  dsimp only
  rw [if_neg (by omega)]

theorem memset_getByte_lt (n : Nat) (m : Nat → Nat) (p c q : Nat) (hq : q < p) :
    getByte (memset m p c n) q = getByte m q := by
  induction n generalizing m p with
  | zero => rfl
  | succ k ih =>
    unfold memset
    rw [ih (putByte m p c) (p + 1) (by omega)]
    exact getByte_putByte_ne m p c q (by omega)

theorem memset_zero_getByte (n : Nat) (m : Nat → Nat) (p i : Nat) (hi : i < n) :
    getByte (memset m p 0 n) (p + i) = 0 := by
  induction n generalizing m p i with
  | zero => omega
  | succ k ih =>
    unfold memset
    cases i with
    | zero =>
      show getByte (memset (putByte m p 0) (p + 1) 0 k) p = 0
      rw [memset_getByte_lt k (putByte m p 0) (p + 1) 0 p (by omega)]
      rw [getByte_putByte_self]
    | succ j =>
      rw [show p + (j + 1) = (p + 1) + j by omega]
      exact ih (putByte m p 0) (p + 1) j (by omega)

/-! ### Claim theorems -/

/-- C3 (code bug): on the perfectly consistent heap produced by
`init()` — one free block, free-list length 1, physical free count 1 —
the reconciliation step of checkFreeList nevertheless emits its
count-mismatch diagnostic, because the source compares `i - 1` (one
less than the number of nodes its walk visits) with the physical count
`j`.  The claim (report iff the two counts differ) describes the
intended behaviour, which the code misses by one. -/
theorem c3_checker_miscounts_consistent_heap :
    freelistLength 20 initHeap = 1 ∧
    heapFreeCountLoop 20 initHeap initHeap.heap_listp 0 = 1 ∧
    checkFreeList 20 initHeap = ["free block count mismatch"] ∧
    mm_checkheap 20 initHeap = ["free block count mismatch"] := by
  refine ⟨by decide, by decide, ?_, ?_⟩
  all_goals decide

/-- C4 (counterexample): after `init(); p = allocate(100);
q = resize(p, 50)` the block at `NEXT_BLKP(p)` is free but has size
192, not 48: the claimed 48-byte free block does not exist because the
shrink remainder coalesces with the 144-byte free block that
`allocate(100)` had split off right after `p`. -/
theorem c4_counterexample :
    s4b.1 = some 16 ∧ NEXT_BLKP s4b.2.mem 16 = 80 ∧
    GET_ALLOC s4b.2.mem (HDRP 80) = 0 ∧
    GET_SIZE s4b.2.mem (HDRP 80) = 192 ∧
    GET_SIZE s4b.2.mem (HDRP 80) ≠ 48 := by
  refine ⟨by decide, by decide, by decide, by decide, by decide⟩

/-- C4 (amended): after `init(); p = allocate(100); q = resize(p, 50)`:
`q == p` (= 16), the block at `p` has header size 64 and is allocated,
and the free block at `NEXT_BLKP(p)` has size 192 — the 48 bytes shrunk
off `p` merged with the adjacent 144-byte free remainder of the
original allocation. -/
theorem c4_amended :
    s4b.1 = some 16 ∧
    GET_SIZE s4b.2.mem (HDRP 16) = 64 ∧ GET_ALLOC s4b.2.mem (HDRP 16) = 1 ∧
    NEXT_BLKP s4b.2.mem 16 = 80 ∧
    GET_ALLOC s4b.2.mem (HDRP 80) = 0 ∧ GET_SIZE s4b.2.mem (HDRP 80) = 192 ∧
    GET_SIZE s4b.2.mem (HDRP 80) = 48 + 144 := by
  refine ⟨by decide, by decide, by decide, by decide, by decide, by decide, by decide⟩

/-- C6: invalid requests are handled without error signalling, for every
heap state: `allocate(0)` returns null and leaves the heap untouched;
`free(null)` is a no-op; `resize(null, n)` is exactly `allocate(n)`;
and `resize(p, 0)` frees `p` and returns null. -/
theorem c6_invalid_requests (h : Heap) (fuel p n : Nat) (hp : p ≠ 0) :
    malloc fuel h 0 = (none, h) ∧
    free h 0 = h ∧
    realloc fuel h 0 n = malloc fuel h n ∧
    realloc fuel h p 0 = (none, free h p) := by
  refine ⟨rfl, rfl, rfl, ?_⟩
  unfold realloc
  rw [if_neg hp, if_pos rfl]

theorem c6_invalid_requests_witness :
    malloc 5 initHeap 0 = (none, initHeap) ∧
    free initHeap 0 = initHeap ∧
    realloc 5 initHeap 0 7 = malloc 5 initHeap 7 ∧
    realloc 5 initHeap 16 0 = (none, free initHeap 16) :=
  c6_invalid_requests initHeap 5 16 7 (by decide)

/-- C5: when the backing `mem_sbrk` would exceed the provider budget
(heap_extend failure) and no fitting free block exists, `allocate`
returns null with the heap — in particular the free list — left
exactly as it was, after a single unretried extension attempt; and
`resize` on a grow whose internal allocation fails likewise returns
null with the whole heap, including the original block, untouched. -/
theorem c5_oom_leaves_heap_unchanged (h : Heap) (fuel n p n2 : Nat) (hn : n ≠ 0)
    (hff : find_fit fuel h (mallocAdjust n) = none)
    (hsb : h.budget < h.size + sbrkBytes (max (mallocAdjust n) CHUNKSIZE / 4))
    (hp : p ≠ 0) (hn2 : n2 ≠ 0)
    (hgrow : GET_SIZE h.mem (HDRP p) < ALIGN n2)
    (hff2 : find_fit fuel h (mallocAdjust (ALIGN n2)) = none)
    (hsb2 : h.budget < h.size + sbrkBytes (max (mallocAdjust (ALIGN n2)) CHUNKSIZE / 4)) :
    malloc fuel h n = (none, h) ∧ realloc fuel h p n2 = (none, h) := by
  refine ⟨malloc_extend_fail fuel h n hn hff hsb, ?_⟩
  unfold realloc
  rw [if_neg hp, if_neg hn2]
  dsimp only
  rw [if_neg (by omega), if_pos hgrow]
  rw [malloc_extend_fail fuel h (ALIGN n2) (by omega) hff2 hsb2]

theorem c5_oom_leaves_heap_unchanged_witness :
    malloc 20 tightHeap 300 = (none, tightHeap) ∧
    realloc 20 tightHeap 16 300 = (none, tightHeap) :=
  c5_oom_leaves_heap_unchanged tightHeap 20 300 16 300 (by decide) (by decide)
    (by decide) (by decide) (by decide) (by decide) (by decide) (by decide)

/-- C8 (counterexample): with `size(p)` read as the stored block size
(`GET_SIZE(HDRP(p))`, the only size the allocator keeps), the claim
fails: after `init(); p = allocate(100)` the block at `p = 16` has size
112, and `resize(p, 112)` does not return `p` — `ALIGN(112) = 120 >
112` sends it down the move path and it returns the pointer 128. -/
theorem c8_counterexample :
    s8a.1 = some 16 ∧ GET_SIZE s8a.2.mem (HDRP 16) = 112 ∧
    (realloc 50 s8a.2 16 (GET_SIZE s8a.2.mem (HDRP 16))).1 = some 128 ∧
    (realloc 50 s8a.2 16 (GET_SIZE s8a.2.mem (HDRP 16))).1 ≠ some 16 := by
  refine ⟨by decide, by decide, by decide, by decide⟩

/-- C8 (amended): `resize(p, n)` returns `p` with the whole heap
unchanged — same pointer, size, allocation bit and contents — exactly
when the adjusted request still fits and the slack is below the
16-byte minimum block: `ALIGN(n) ≤ size(p) < ALIGN(n) + 16`.  In
particular this holds when `n` is the originally requested payload
size, but not when `n` equals the stored block size. -/
theorem c8_resize_same_size_in_place (h : Heap) (fuel p n : Nat) (hp : p ≠ 0)
    (hn : n ≠ 0) (hle : ALIGN n ≤ GET_SIZE h.mem (HDRP p))
    (hlt : GET_SIZE h.mem (HDRP p) - ALIGN n < 16) :
    realloc fuel h p n = (some p, h) := by
  unfold realloc
  rw [if_neg hp, if_neg hn]
  dsimp only
  rw [if_pos hle, if_pos hlt]

theorem c8_resize_same_size_in_place_witness :
    realloc 50 s8a.2 16 100 = (some 16, s8a.2) :=
  c8_resize_same_size_in_place s8a.2 50 16 100 (by decide) (by decide)
    (by decide) (by decide)

/-- C10: for every non-null `ptr` and `n > 0` the two comparison arms of
resize are exhaustive, so the trailing `return 0` is dead code: if
`resize(p, n)` returns null then the request took the grow path
(`ALIGN(n)` exceeds the stored block size) and the internal
`allocate(ALIGN(n))` itself returned null. -/
theorem c10_resize_null_only_on_grow_failure (h : Heap) (fuel p n : Nat)
    (hp : p ≠ 0) (hn : n ≠ 0) (hnone : (realloc fuel h p n).1 = none) :
    GET_SIZE h.mem (HDRP p) < ALIGN n ∧ (malloc fuel h (ALIGN n)).1 = none := by
  unfold realloc at hnone
  rw [if_neg hp, if_neg hn] at hnone
  dsimp only at hnone
  by_cases hle : ALIGN n ≤ GET_SIZE h.mem (HDRP p)
  · rw [if_pos hle] at hnone
    by_cases hslack : GET_SIZE h.mem (HDRP p) - ALIGN n < 16
    · rw [if_pos hslack] at hnone
      simp at hnone
    · rw [if_neg hslack] at hnone
      simp at hnone
  · rw [if_neg hle] at hnone
    have hlt : GET_SIZE h.mem (HDRP p) < ALIGN n := by omega
    rw [if_pos hlt] at hnone
    rcases hm : malloc fuel h (ALIGN n) with ⟨o, h1⟩
    rw [hm] at hnone
    cases o with
    | none => exact ⟨hlt, rfl⟩
    | some q => simp at hnone

theorem c10_resize_null_only_on_grow_failure_witness :
    GET_SIZE tightHeap.mem (HDRP 16) < ALIGN 300 ∧
    (malloc 20 tightHeap (ALIGN 300)).1 = none :=
  c10_resize_null_only_on_grow_failure tightHeap 20 16 300 (by decide) (by decide)
    (by decide)

/-- C7 (counterexample): zero_allocate does not zero-fill the whole
payload.  After `init(); a = allocate(8); b = allocate(8); free(a)`,
the freed 16-byte block at 16 carries the free-list next offset 40 in
its payload; `zero_allocate(1, 4)` then returns that block and zeroes
only 4 bytes, so payload byte 4 of the returned block (address 20)
still holds 40 ≠ 0. -/
theorem c7_counterexample :
    s7c.1 = some 16 ∧ GET_SIZE s7c.2.mem (HDRP 16) = 16 ∧
    getByte s7c.2.mem 20 = 40 ∧ getByte s7c.2.mem 20 ≠ 0 := by
  refine ⟨by decide, by decide, by decide, by decide⟩

/-- C7 (amended): `zero_allocate(nmemb, size)` computes
`bytes = nmemb * size` (as `size_t`, i.e. mod 2^64), calls
`allocate(bytes)`, and on a non-null result zeroes exactly the first
`bytes` bytes of the returned payload — not the whole payload. -/
theorem c7_calloc_zeroes_requested_bytes (fuel : Nat) (h : Heap)
    (nmemb size p : Nat) (h1 : Heap)
    (hc : calloc fuel h nmemb size = (some p, h1)) :
    ∀ i, i < nmemb * size % 2 ^ 64 → getByte h1.mem (p + i) = 0 := by
  unfold calloc at hc
  dsimp only at hc
  rcases hm : malloc fuel h (nmemb * size % 2 ^ 64) with ⟨o, h2⟩
  rw [hm] at hc
  cases o with
  | none => simp at hc
  | some q =>
    rw [Prod.mk.injEq] at hc
    obtain ⟨hq, hh⟩ := hc
    rw [Option.some.injEq] at hq
    subst hq
    intro i hi
    rw [← hh]
    exact memset_zero_getByte _ _ _ _ hi

theorem c7_calloc_zeroes_requested_bytes_witness :
    getByte (calloc 20 initHeap 2 3).2.mem (16 + 5) = 0 :=
  c7_calloc_zeroes_requested_bytes 20 initHeap 2 3 16 (calloc 20 initHeap 2 3).2
    (Prod.ext (by decide) rfl) 5 (by decide)


/-! ### Size-arithmetic and traversal lemmas for the extension path -/

theorem sbrkBytes_dvd (words : Nat) : 8 ∣ sbrkBytes words := by
  unfold sbrkBytes
  split
  all_goals omega

theorem sbrkBytes_of_dvd8 (e : Nat) (he : 8 ∣ e) : sbrkBytes (e / 4) = e := by
  unfold sbrkBytes
  split
  all_goals omega

theorem ALIGN_dvd (n : Nat) : 8 ∣ ALIGN n := by
  unfold ALIGN
  omega

theorem mallocAdjust_dvd (n : Nat) : 8 ∣ mallocAdjust n := by
  unfold mallocAdjust
  split
  · omega
  · exact ALIGN_dvd n

theorem ALIGN_ge_16 (n : Nat) (hn : n ≠ 0) (h64 : n + 15 < 2 ^ 64) : 16 ≤ ALIGN n := by
  unfold ALIGN
  omega

theorem ALIGN_le (n : Nat) (h64 : n + 15 < 2 ^ 64) : ALIGN n ≤ n + 15 := by
  unfold ALIGN
  omega

theorem mallocAdjust_eq_ALIGN (n : Nat) (hn : n ≠ 0) (h64 : n + 15 < 2 ^ 64) :
    mallocAdjust n = ALIGN n := by
  unfold mallocAdjust ALIGN
  split
  all_goals omega

theorem mallocAdjust_ge_16 (n : Nat) (hn : n ≠ 0) (h64 : n + 15 < 2 ^ 64) :
    16 ≤ mallocAdjust n := by
  unfold mallocAdjust ALIGN
  split
  all_goals omega

theorem ALIGN_of_aligned (s : Nat) (h8 : 8 ∣ s) (h64 : s + 15 < 2 ^ 64) :
    ALIGN s = s + 8 := by
  unfold ALIGN
  omega

theorem find_fit_loop_ge (fuel : Nat) (h : Heap) (a val bp : Nat)
    (hf : find_fit_loop fuel h a val = some bp) :
    a ≤ GET_SIZE h.mem (HDRP bp) ∧ ∃ v, v ≠ 0 ∧ bp = h.heap_listp + v := by
  induction fuel generalizing val with
  | zero => exact absurd hf (by simp [find_fit_loop])
  | succ k ih =>
    unfold find_fit_loop at hf
    by_cases hv : val = 0
    · rw [if_pos hv] at hf
      exact absurd hf (by simp)
    · rw [if_neg hv] at hf
      dsimp only at hf
      by_cases hsz : a ≤ GET_SIZE h.mem (HDRP (h.heap_listp + val))
      · rw [if_pos hsz] at hf
        rw [Option.some.injEq] at hf
        subst hf
        exact ⟨hsz, val, hv, rfl⟩
      · rw [if_neg hsz] at hf
        exact ih _ hf

theorem GET_addToFreeList_out (h : Heap) (bp q : Nat)
    (hq1 : q + 4 ≤ bp ∨ bp + 8 ≤ q)
    (hq2 : h.freelist = 0 ∨ h.heap_listp + h.freelist + 4 ≤ q ∨
      q + 4 ≤ h.heap_listp + h.freelist) :
    GET (addToFreeList h bp).mem q = GET h.mem q := by
  unfold addToFreeList
  dsimp only
  by_cases hf : h.freelist ≠ 0
  · rw [if_pos hf]
    rw [GET_PUT_out _ _ _ _ (by omega)]
    rw [GET_PUT_out _ _ _ _ (by omega), GET_PUT_out _ _ _ _ (by omega)]
  · rw [if_neg hf]
    rw [GET_PUT_out _ _ _ _ (by omega), GET_PUT_out _ _ _ _ (by omega)]



/-- A header word holding `v + 1` with `8 ∣ v` records size `v` (at
least `a` for any `a ≤ v`) and the allocated bit. -/
theorem size_alloc_ge (m : Nat → Nat) (p a v : Nat) (hG : GET m p = v + 1)
    (h8 : 8 ∣ v) (hav : a ≤ v) :
    a ≤ GET_SIZE m p ∧ GET_ALLOC m p = 1 := by
  unfold GET_SIZE GET_ALLOC
  rw [hG]
  constructor
  all_goals omega

/-- What the five stores of extend_heap leave in memory: the new header
holds `PACK(size, 0)`, the new epilogue holds `PACK(0, 1)`, and memory
strictly below the header is untouched. -/
theorem extendWrite_GET (m : Nat → Nat) (bp sz : Nat)
    (hb : 4 ≤ bp) (h16 : 16 ≤ sz) (h32 : sz < 2 ^ 32) (h8 : 8 ∣ sz) :
    GET (extendWrite m bp sz) (bp - 4) = sz ∧
    GET (extendWrite m bp sz) (bp + sz - 4) = 1 ∧
    (∀ q, q + 4 ≤ bp - 4 → GET (extendWrite m bp sz) q = GET m q) := by
  unfold extendWrite HDRP FTRP NEXT_BLKP
  dsimp only
  have e1 : GET_SIZE (PUT m (bp - 4) (PACK sz 0)) (bp - 4) = sz :=
    GET_SIZE_PUT_pack m (bp - 4) sz 0 h8 h32 (by omega)
  rw [e1]
  have e2 : GET_SIZE (PUT (PUT m (bp - 4) (PACK sz 0)) (bp + sz - 8) (PACK sz 0))
      (bp - 4) = sz := by
    unfold GET_SIZE
    rw [GET_PUT_out _ _ _ _ (by omega)]
    exact e1
  rw [e2]
  refine ⟨?_, ?_, ?_⟩
  · rw [GET_PUT_out _ _ _ _ (by omega), GET_PUT_out _ _ _ _ (by omega),
      GET_PUT_out _ _ _ _ (by omega), GET_PUT_out _ _ _ _ (by omega)]
    rw [GET_PUT_self, PACK_zero]
    omega
  · rw [GET_PUT_out _ _ _ _ (by omega), GET_PUT_out _ _ _ _ (by omega),
      GET_PUT_self]
    have hPACK : PACK 0 1 = 1 := by
      unfold PACK
      simp
    rw [hPACK]
    omega
  · intro q hq
    rw [GET_PUT_out _ _ _ _ (by omega), GET_PUT_out _ _ _ _ (by omega),
      GET_PUT_out _ _ _ _ (by omega), GET_PUT_out _ _ _ _ (by omega),
      GET_PUT_out _ _ _ _ (by omega)]

/-- After place(bp, asize) on a block whose stored size is at least
`asize`, the header at `bp` still records a size of at least `asize`
(exactly `asize` if a split happened, the old size otherwise) and the
allocated bit, provided the head of the post-unlink free list does not
alias the header word (in a consistent heap it never does). -/
theorem place_size (h : Heap) (bp a : Nat)
    (ha8 : 8 ∣ a) (ha16 : 16 ≤ a) (ha32 : a < 2 ^ 32) (hb : 4 ≤ bp)
    (hcs : a ≤ GET_SIZE h.mem (HDRP bp))
    (hal : (removeFromFreeList h bp).freelist = 0 ∨
           h.heap_listp + (removeFromFreeList h bp).freelist + 4 ≤ bp - 4 ∨
           bp ≤ h.heap_listp + (removeFromFreeList h bp).freelist) :
    a ≤ GET_SIZE (place h bp a).mem (HDRP bp) ∧
    GET_ALLOC (place h bp a).mem (HDRP bp) = 1 := by
  unfold place HDRP FTRP NEXT_BLKP
  dsimp only
  set h1 := removeFromFreeList h bp with hh1
  have hlp2 : h1.heap_listp = h.heap_listp := by
    rw [hh1]
    exact removeFromFreeList_heap_listp h bp
  have hcs2 : a ≤ GET_SIZE h.mem (bp - 4) := hcs
  have hc8 : 8 ∣ GET_SIZE h.mem (bp - 4) := GET_SIZE_dvd h.mem (bp - 4)
  have hc32 : GET_SIZE h.mem (bp - 4) < 2 ^ 32 := GET_SIZE_lt h.mem (bp - 4)
  have hsub : sub64 (GET_SIZE h.mem (bp - 4)) a = GET_SIZE h.mem (bp - 4) - a :=
    sub64_eq_sub _ _ hcs2 (by omega)
  rw [hsub]
  set c := GET_SIZE h.mem (bp - 4) with hc
  by_cases hsp : 16 ≤ c - a
  · rw [if_pos hsp]
    have e1 : GET_SIZE (PUT h1.mem (bp - 4) (PACK a 1)) (bp - 4) = a :=
      GET_SIZE_PUT_pack h1.mem (bp - 4) a 1 ha8 ha32 (by omega)
    rw [e1]
    have e2 : GET_SIZE (PUT (PUT h1.mem (bp - 4) (PACK a 1)) (bp + a - 8) (PACK a 1))
        (bp - 4) = a := by
      unfold GET_SIZE
      rw [GET_PUT_out _ _ _ _ (by omega)]
      exact e1
    rw [e2]
    have e3 : GET_SIZE (PUT (PUT (PUT h1.mem (bp - 4) (PACK a 1)) (bp + a - 8)
        (PACK a 1)) (bp + a - 4) (PACK (c - a) 0)) (bp + a - 4) = c - a :=
      GET_SIZE_PUT_pack _ (bp + a - 4) (c - a) 0 (by omega) (by omega) (by omega)
    rw [e3]
    unfold addToFreeList
    dsimp only
    rw [hlp2]
    by_cases hf : h1.freelist ≠ 0
    · rw [if_pos hf]
      refine size_alloc_ge _ _ a a ?_ ha8 le_rfl
      rcases hal with hal | hal | hal
      · exact absurd hal hf
      all_goals
        rw [GET_PUT_out _ _ _ _ (by omega), GET_PUT_out _ _ _ _ (by omega),
          GET_PUT_out _ _ _ _ (by omega), GET_PUT_out _ _ _ _ (by omega),
          GET_PUT_out _ _ _ _ (by omega), GET_PUT_out _ _ _ _ (by omega),
          GET_PUT_self, PACK_one a ha8]
      all_goals omega
    · rw [if_neg hf]
      refine size_alloc_ge _ _ a a ?_ ha8 le_rfl
      rw [GET_PUT_out _ _ _ _ (by omega), GET_PUT_out _ _ _ _ (by omega),
        GET_PUT_out _ _ _ _ (by omega), GET_PUT_out _ _ _ _ (by omega),
        GET_PUT_out _ _ _ _ (by omega), GET_PUT_self, PACK_one a ha8]
      omega
  · rw [if_neg hsp]
    have e1 : GET_SIZE (PUT h1.mem (bp - 4) (PACK c 1)) (bp - 4) = c :=
      GET_SIZE_PUT_pack h1.mem (bp - 4) c 1 hc8 hc32 (by omega)
    rw [e1]
    refine size_alloc_ge _ _ a c ?_ hc8 hcs2
    rw [GET_PUT_out _ _ _ _ (by omega), GET_PUT_self, PACK_one c hc8]
    omega


/-- coalesce on a free block whose physical successor is allocated (the
situation of a just-extended heap, where the written epilogue follows)
either leaves the block alone (previous neighbour allocated) or merges
it into the previous block; in both cases the resulting header records
at least the original size, and the bookkeeping fields are unchanged.
The arithmetic side condition rules out 32-bit truncation of the merged
size (it always holds in a consistent heap). -/
theorem coalesce_next_alloc (h : Heap) (bp bp1 : Nat) (h3 : Heap)
    (hC : coalesce h bp = (bp1, h3))
    (hsz : 16 ≤ GET_SIZE h.mem (HDRP bp))
    (hnext : GET_ALLOC h.mem (HDRP (NEXT_BLKP h.mem bp)) = 1)
    (Htr : GET_SIZE h.mem (HDRP bp) +
      GET_SIZE (removeFromFreeList h (PREV_BLKP h.mem bp)).mem
        (HDRP (PREV_BLKP h.mem bp)) < 2 ^ 32) :
    GET_SIZE h.mem (HDRP bp) ≤ GET_SIZE h3.mem (HDRP bp1) ∧
      h3.heap_listp = h.heap_listp ∧ h3.size = h.size ∧ h3.budget = h.budget := by
  have hs8 : 8 ∣ GET_SIZE h.mem (bp - 4) := GET_SIZE_dvd h.mem (bp - 4)
  have hsz2 : 16 ≤ GET_SIZE h.mem (bp - 4) := hsz
  have hnext2 : GET_ALLOC h.mem (bp + GET_SIZE h.mem (bp - 4) - 4) = 1 := hnext
  have hv8 : 8 ∣ GET_SIZE (removeFromFreeList h (bp - GET_SIZE h.mem (bp - 8))).mem
      (bp - GET_SIZE h.mem (bp - 8) - 4) :=
    GET_SIZE_dvd _ _
  have Htr2 : GET_SIZE h.mem (bp - 4) +
      GET_SIZE (removeFromFreeList h (bp - GET_SIZE h.mem (bp - 8))).mem
        (bp - GET_SIZE h.mem (bp - 8) - 4) < 2 ^ 32 := Htr
  unfold coalesce HDRP FTRP NEXT_BLKP PREV_BLKP at hC
  dsimp only at hC
  unfold GET_ALLOC at hnext2
  unfold GET_ALLOC at hC
  rw [hnext2] at hC
  set s := GET_SIZE h.mem (bp - 4) with hsdef
  set pv := GET_SIZE h.mem (bp - 8) with hpvdef
  set h1 := removeFromFreeList h (bp - pv) with hh1
  set v := GET_SIZE h1.mem (bp - pv - 4) with hvdef
  by_cases hpa : GET h.mem (bp - pv + GET_SIZE h.mem (bp - pv - 4) - 8) % 2 = 0
  · rw [if_neg (by omega), if_neg (by omega), if_pos (by omega)] at hC
    rw [Prod.mk.injEq] at hC
    obtain ⟨e1, e2⟩ := hC
    subst e1
    subst e2
    refine ⟨?_, ?_, ?_, ?_⟩
    · have e3 : GET_SIZE (PUT h1.mem (bp - pv - 4) (PACK (s + v) 0)) (bp - pv - 4)
          = s + v :=
        GET_SIZE_PUT_pack h1.mem (bp - pv - 4) (s + v) 0 (by omega) (by omega) (by omega)
      rw [e3]
      show s ≤ GET_SIZE _ (bp - pv - 4)
      unfold GET_SIZE
      rw [GET_PUT_out _ _ _ _ (by omega)]
      unfold GET_SIZE at e3
      omega
    · show h1.heap_listp = h.heap_listp
      rw [hh1]
      exact removeFromFreeList_heap_listp h (bp - pv)
    · show h1.size = h.size
      rw [hh1]
      exact removeFromFreeList_size h (bp - pv)
    · show h1.budget = h.budget
      rw [hh1]
      exact removeFromFreeList_budget h (bp - pv)
  · rw [if_pos (by omega)] at hC
    rw [Prod.mk.injEq] at hC
    obtain ⟨e1, e2⟩ := hC
    subst e1
    subst e2
    exact ⟨le_rfl, rfl, rfl, rfl⟩

/-- extend_heap on a heap whose provider still has `sz` bytes: the sbrk
succeeds, the new free block (possibly merged with a free old tail
block by coalesce) ends with a header recording at least `sz` bytes,
and it is pushed on the free list.  `hext` names the state right after
the five stores, `(bp1, h3)` the coalesce result; `Htr` and `Hfl` are
the no-truncation and no-aliasing side conditions of the coalesce and
insertion steps (they always hold in a consistent heap). -/
theorem extend_heap_spec (h : Heap) (words sz : Nat) (hszEq : sbrkBytes words = sz)
    (hb : 16 ≤ h.size) (h16 : 16 ≤ sz) (h32 : sz < 2 ^ 32)
    (hsb : h.size + sz ≤ h.budget)
    (hext : Heap)
    (hE : hext = { h with size := h.size + sz, mem := extendWrite h.mem h.size sz })
    (bp1 : Nat) (h3 : Heap) (hC : coalesce hext h.size = (bp1, h3))
    (Htr : GET_SIZE hext.mem (HDRP h.size) +
      GET_SIZE (removeFromFreeList hext (PREV_BLKP hext.mem h.size)).mem
        (HDRP (PREV_BLKP hext.mem h.size)) < 2 ^ 32)
    (Hbp4 : 4 ≤ bp1)
    (Hfl : h3.freelist = 0 ∨ h3.heap_listp + h3.freelist + 4 ≤ bp1 - 4 ∨
      bp1 ≤ h3.heap_listp + h3.freelist) :
    extend_heap h words = some (bp1, addToFreeList h3 bp1) ∧
    sz ≤ GET_SIZE (addToFreeList h3 bp1).mem (HDRP bp1) ∧
    (addToFreeList h3 bp1).heap_listp = h.heap_listp ∧
    (addToFreeList h3 bp1).size = h.size + sz ∧
    (addToFreeList h3 bp1).budget = h.budget := by
  have h8 : 8 ∣ sz := by
    rw [← hszEq]
    exact sbrkBytes_dvd words
  obtain ⟨E1, E2, E3⟩ := extendWrite_GET h.mem h.size sz (by omega) h16 h32 h8
  have hmem : hext.mem = extendWrite h.mem h.size sz := by rw [hE]
  have hsz0 : GET_SIZE hext.mem (HDRP h.size) = sz := by
    unfold GET_SIZE HDRP
    rw [hmem, E1]
    omega
  have hnext : GET_ALLOC hext.mem (HDRP (NEXT_BLKP hext.mem h.size)) = 1 := by
    have hN : NEXT_BLKP hext.mem h.size = h.size + sz := by
      unfold NEXT_BLKP
      have e : GET_SIZE hext.mem (h.size - 4) = sz := hsz0
      rw [e]
    rw [hN]
    unfold GET_ALLOC HDRP
    rw [hmem, E2]
  obtain ⟨hge, hlpa, hsza, hbda⟩ :=
    coalesce_next_alloc hext h.size bp1 h3 hC (by omega) hnext Htr
  have hGpres : GET (addToFreeList h3 bp1).mem (HDRP bp1) = GET h3.mem (HDRP bp1) := by
    refine GET_addToFreeList_out h3 bp1 (HDRP bp1) (Or.inl (by unfold HDRP; omega)) ?_
    rcases Hfl with hf | hf | hf
    · exact Or.inl hf
    · exact Or.inr (Or.inl (by unfold HDRP; omega))
    · exact Or.inr (Or.inr (by unfold HDRP; omega))
  have hsize_pres : GET_SIZE (addToFreeList h3 bp1).mem (HDRP bp1) =
      GET_SIZE h3.mem (HDRP bp1) := by
    unfold GET_SIZE
    rw [hGpres]
  have hEq : extend_heap h words = some (bp1, addToFreeList h3 bp1) := by
    unfold extend_heap mem_sbrk
    dsimp only
    rw [hszEq, if_pos (by omega)]
    dsimp only
    rw [← hE, hC]
  refine ⟨hEq, ?_, ?_, ?_, ?_⟩
  · rw [hsize_pres]
    omega
  · rw [addToFreeList_heap_listp, hlpa, hE]
  · rw [addToFreeList_size, hsza, hE]
  · rw [addToFreeList_budget, hbda, hE]


/-- Any successful malloc leaves the returned block with a header
recording at least the adjusted request and the allocated bit.  The
fit-path hypothesis and the extension-path data (`hext`, `bp1`, `h3`)
with their no-truncation / no-aliasing side conditions describe the two
ways malloc can obtain the block; all side conditions hold in any
consistent heap. -/
theorem malloc_block_ge (fuel : Nat) (h : Heap) (n q : Nat) (hq : Heap)
    (hm : malloc fuel h n = (some q, hq))
    (hn : n ≠ 0) (hn32 : n + 16 ≤ 2 ^ 32) (hhl : 3 ≤ h.heap_listp) (hb : 16 ≤ h.size)
    (HfitSafe : ∀ bp, find_fit fuel h (mallocAdjust n) = some bp →
      ((removeFromFreeList h bp).freelist = 0 ∨
       h.heap_listp + (removeFromFreeList h bp).freelist + 4 ≤ bp - 4 ∨
       bp ≤ h.heap_listp + (removeFromFreeList h bp).freelist))
    (hext : Heap)
    (hE : hext = { h with size := h.size + max (mallocAdjust n) CHUNKSIZE, mem := extendWrite h.mem h.size (max (mallocAdjust n) CHUNKSIZE) })
    (bp1 : Nat) (h3 : Heap) (hC : coalesce hext h.size = (bp1, h3))
    (Hsb : find_fit fuel h (mallocAdjust n) = none →
      h.size + max (mallocAdjust n) CHUNKSIZE ≤ h.budget)
    (Htr : GET_SIZE hext.mem (HDRP h.size) +
      GET_SIZE (removeFromFreeList hext (PREV_BLKP hext.mem h.size)).mem
        (HDRP (PREV_BLKP hext.mem h.size)) < 2 ^ 32)
    (Hbp4 : 4 ≤ bp1)
    (Hfl : h3.freelist = 0 ∨ h3.heap_listp + h3.freelist + 4 ≤ bp1 - 4 ∨
      bp1 ≤ h3.heap_listp + h3.freelist)
    (HplaceExt : (removeFromFreeList (addToFreeList h3 bp1) bp1).freelist = 0 ∨
      (addToFreeList h3 bp1).heap_listp +
        (removeFromFreeList (addToFreeList h3 bp1) bp1).freelist + 4 ≤ bp1 - 4 ∨
      bp1 ≤ (addToFreeList h3 bp1).heap_listp +
        (removeFromFreeList (addToFreeList h3 bp1) bp1).freelist) :
    mallocAdjust n ≤ GET_SIZE hq.mem (HDRP q) ∧ GET_ALLOC hq.mem (HDRP q) = 1 := by
  have ha8 : 8 ∣ mallocAdjust n := mallocAdjust_dvd n
  have ha16 : 16 ≤ mallocAdjust n := mallocAdjust_ge_16 n hn (by omega)
  have ha32 : mallocAdjust n < 2 ^ 32 := by
    unfold mallocAdjust ALIGN
    split
    all_goals omega
  unfold malloc at hm
  rw [if_neg hn] at hm
  dsimp only at hm
  rcases hff : find_fit fuel h (mallocAdjust n) with _ | bp
  · rw [hff] at hm
    have hszEq : sbrkBytes (max (mallocAdjust n) CHUNKSIZE / 4) =
        max (mallocAdjust n) CHUNKSIZE := by
      refine sbrkBytes_of_dvd8 _ ?_
      have : CHUNKSIZE = 256 := rfl
      omega
    obtain ⟨hEq, hge, hlp3, hsz3, hbd3⟩ :=
      extend_heap_spec h (max (mallocAdjust n) CHUNKSIZE / 4)
        (max (mallocAdjust n) CHUNKSIZE) hszEq hb (by omega)
        (by have : CHUNKSIZE = 256 := rfl; omega) (Hsb hff) hext hE bp1 h3 hC Htr Hbp4 Hfl
    rw [hEq] at hm
    rw [Prod.mk.injEq, Option.some.injEq] at hm
    obtain ⟨e1, e2⟩ := hm
    subst e2
    rw [← e1]
    exact place_size (addToFreeList h3 bp1) bp1 (mallocAdjust n) ha8 ha16 ha32
      (by omega) (by omega) HplaceExt
  · rw [hff] at hm
    rw [Prod.mk.injEq, Option.some.injEq] at hm
    obtain ⟨e1, e2⟩ := hm
    subst e2
    rw [← e1]
    have hf2 : find_fit_loop fuel h (mallocAdjust n) h.freelist = some bp := hff
    obtain ⟨hcs, v, hv0, hveq⟩ := find_fit_loop_ge fuel h (mallocAdjust n) h.freelist bp hf2
    exact place_size h bp (mallocAdjust n) ha8 ha16 ha32 (by omega) hcs (HfitSafe bp hff)


/-- C2: when `allocate(n)` (n > 0) misses the free list, it calls
`extend_heap(max(asize, CHUNKSIZE) / 4)`; on sbrk success the block
returned by extend_heap — the freshly extended region, coalesced with a
possibly-free old tail block — has size at least `asize`, so the
subsequent place succeeds and allocate returns that payload pointer.
`hext` is the state after extend_heap writes the new header, footer and
epilogue; `(bp1, h3)` is the coalesce result; `Htr`/`Hfl` exclude
32-bit truncation of a merged size and aliasing of the old free-list
head with the new header (both impossible in a consistent heap). -/
theorem c2_extend_heap_serves_request (fuel : Nat) (h : Heap) (n : Nat)
    (hn : n ≠ 0) (hn32 : n + 16 ≤ 2 ^ 32) (hb : 16 ≤ h.size)
    (hff : find_fit fuel h (mallocAdjust n) = none)
    (hsb : h.size + max (mallocAdjust n) CHUNKSIZE ≤ h.budget)
    (hext : Heap)
    (hE : hext = { h with size := h.size + max (mallocAdjust n) CHUNKSIZE, mem := extendWrite h.mem h.size (max (mallocAdjust n) CHUNKSIZE) })
    (bp1 : Nat) (h3 : Heap) (hC : coalesce hext h.size = (bp1, h3))
    (Htr : GET_SIZE hext.mem (HDRP h.size) +
      GET_SIZE (removeFromFreeList hext (PREV_BLKP hext.mem h.size)).mem
        (HDRP (PREV_BLKP hext.mem h.size)) < 2 ^ 32)
    (Hbp4 : 4 ≤ bp1)
    (Hfl : h3.freelist = 0 ∨ h3.heap_listp + h3.freelist + 4 ≤ bp1 - 4 ∨
      bp1 ≤ h3.heap_listp + h3.freelist) :
    extend_heap h (max (mallocAdjust n) CHUNKSIZE / 4) = some (bp1, addToFreeList h3 bp1) ∧
    mallocAdjust n ≤ GET_SIZE (addToFreeList h3 bp1).mem (HDRP bp1) ∧
    malloc fuel h n = (some bp1, place (addToFreeList h3 bp1) bp1 (mallocAdjust n)) := by
  have ha8 : 8 ∣ mallocAdjust n := mallocAdjust_dvd n
  have ha16 : 16 ≤ mallocAdjust n := mallocAdjust_ge_16 n hn (by omega)
  have hszEq : sbrkBytes (max (mallocAdjust n) CHUNKSIZE / 4) =
      max (mallocAdjust n) CHUNKSIZE := by
    refine sbrkBytes_of_dvd8 _ ?_
    have hc : CHUNKSIZE = 256 := rfl
    omega
  have ha32 : mallocAdjust n < 2 ^ 32 := by
    unfold mallocAdjust ALIGN
    split
    all_goals omega
  obtain ⟨hEq, hge, hlp3, hsz3, hbd3⟩ :=
    extend_heap_spec h (max (mallocAdjust n) CHUNKSIZE / 4)
      (max (mallocAdjust n) CHUNKSIZE) hszEq hb (by omega)
      (by have hc : CHUNKSIZE = 256 := rfl; omega) hsb hext hE bp1 h3 hC Htr Hbp4 Hfl
  refine ⟨hEq, by omega, ?_⟩
  unfold malloc
  rw [if_neg hn]
  dsimp only
  rw [hff]
  dsimp only
  rw [hEq]

theorem c2_extend_heap_serves_request_witness :
    extend_heap initHeap (max (mallocAdjust 2000) CHUNKSIZE / 4) =
      some (16, addToFreeList c2h3 16) ∧
    mallocAdjust 2000 ≤ GET_SIZE (addToFreeList c2h3 16).mem (HDRP 16) ∧
    malloc 50 initHeap 2000 = (some 16, place (addToFreeList c2h3 16) 16 (mallocAdjust 2000)) :=
  c2_extend_heap_serves_request 50 initHeap 2000 (by decide) (by decide) (by decide)
    (by decide) (by decide) c2ext rfl 16 c2h3 (Prod.ext (by decide) rfl)
    (by decide) (by decide) (Or.inl (by decide))

/-- C9: in the grow path of resize (ALIGN(n) exceeds the old block
size), the internal allocate receives `asize = ALIGN(n)` — already a
full block size including header and footer — and adjusts it again to
`ALIGN(ALIGN(n)) = ALIGN(n) + 8`; hence whenever that allocation
succeeds, resize returns its pointer and the new block is at least 8
bytes larger than the adjusted size `mallocAdjust n` that the original
request needed.  The `hext`/`bp1`/`h3` data and the side conditions
describe the two ways the internal allocate can obtain the block, as in
the C2 theorem. -/
theorem c9_grow_adjusts_twice (fuel : Nat) (h : Heap) (p n q : Nat) (hq : Heap)
    (hp : p ≠ 0) (hn : n ≠ 0) (hn32 : n + 32 ≤ 2 ^ 32)
    (hgrow : GET_SIZE h.mem (HDRP p) < ALIGN n)
    (hhl : 3 ≤ h.heap_listp) (hb : 16 ≤ h.size)
    (hm : malloc fuel h (ALIGN n) = (some q, hq))
    (HfitSafe : ∀ bp, find_fit fuel h (mallocAdjust (ALIGN n)) = some bp →
      ((removeFromFreeList h bp).freelist = 0 ∨
       h.heap_listp + (removeFromFreeList h bp).freelist + 4 ≤ bp - 4 ∨
       bp ≤ h.heap_listp + (removeFromFreeList h bp).freelist))
    (hext : Heap)
    (hE : hext = { h with size := h.size + max (mallocAdjust (ALIGN n)) CHUNKSIZE, mem := extendWrite h.mem h.size (max (mallocAdjust (ALIGN n)) CHUNKSIZE) })
    (bp1 : Nat) (h3 : Heap) (hC : coalesce hext h.size = (bp1, h3))
    (Hsb : find_fit fuel h (mallocAdjust (ALIGN n)) = none →
      h.size + max (mallocAdjust (ALIGN n)) CHUNKSIZE ≤ h.budget)
    (Htr : GET_SIZE hext.mem (HDRP h.size) +
      GET_SIZE (removeFromFreeList hext (PREV_BLKP hext.mem h.size)).mem
        (HDRP (PREV_BLKP hext.mem h.size)) < 2 ^ 32)
    (Hbp4 : 4 ≤ bp1)
    (Hfl : h3.freelist = 0 ∨ h3.heap_listp + h3.freelist + 4 ≤ bp1 - 4 ∨
      bp1 ≤ h3.heap_listp + h3.freelist)
    (HplaceExt : (removeFromFreeList (addToFreeList h3 bp1) bp1).freelist = 0 ∨
      (addToFreeList h3 bp1).heap_listp +
        (removeFromFreeList (addToFreeList h3 bp1) bp1).freelist + 4 ≤ bp1 - 4 ∨
      bp1 ≤ (addToFreeList h3 bp1).heap_listp +
        (removeFromFreeList (addToFreeList h3 bp1) bp1).freelist) :
    mallocAdjust (ALIGN n) = ALIGN n + 8 ∧
    (realloc fuel h p n).1 = some q ∧
    mallocAdjust n + 8 ≤ GET_SIZE hq.mem (HDRP q) := by
  have h64 : n + 15 < 2 ^ 64 := by omega
  have hA8 : 8 ∣ ALIGN n := ALIGN_dvd n
  have hA16 : 16 ≤ ALIGN n := ALIGN_ge_16 n hn h64
  have hAle : ALIGN n ≤ n + 15 := ALIGN_le n h64
  have hAA : mallocAdjust (ALIGN n) = ALIGN n + 8 := by
    rw [mallocAdjust_eq_ALIGN (ALIGN n) (by omega) (by omega)]
    exact ALIGN_of_aligned (ALIGN n) hA8 (by omega)
  have hMA : mallocAdjust n = ALIGN n := mallocAdjust_eq_ALIGN n hn h64
  refine ⟨hAA, ?_, ?_⟩
  · unfold realloc
    rw [if_neg hp, if_neg hn]
    dsimp only
    rw [if_neg (by omega), if_pos hgrow, hm]
  · obtain ⟨hge, _⟩ := malloc_block_ge fuel h (ALIGN n) q hq hm (by omega) (by omega)
      hhl hb HfitSafe hext hE bp1 h3 hC Hsb Htr Hbp4 Hfl HplaceExt
    rw [hMA]
    omega

theorem c9_grow_adjusts_twice_witness :
    mallocAdjust (ALIGN 200) = ALIGN 200 + 8 ∧
    (realloc 50 s9a.2 16 200).1 = some 128 ∧
    mallocAdjust 200 + 8 ≤ GET_SIZE (malloc 50 s9a.2 (ALIGN 200)).2.mem (HDRP 128) := by
  refine c9_grow_adjusts_twice 50 s9a.2 16 200 128 (malloc 50 s9a.2 (ALIGN 200)).2
    (by decide) (by decide) (by decide) (by decide) (by decide) (by decide)
    (Prod.ext (by decide) rfl) ?_ c9ext rfl 128 c9h3 (Prod.ext (by decide) rfl)
    (fun _ => by decide) (by decide) (by decide) (Or.inl (by decide)) (Or.inl (by decide))
  intro bp hbp
  rw [show find_fit 50 s9a.2 (mallocAdjust (ALIGN 200)) = none from by decide] at hbp
  exact Option.noConfusion hbp


/-- C1 (code bug): the no-adjacent-free-blocks invariant is not
maintained by every sequence of public calls.  After `init();
allocate(2^64 - 15); a = allocate(40); b = allocate(40); free(a)` —
every freed pointer having been returned by allocate — the heap walks
cleanly from 16 to the epilogue at 272 yet contains the adjacent free
blocks [16, 112) and [112, 272): the wrapped ALIGN made place write a
footer over the prologue footer, after which free(a) self-coalesces.
The code's own checker reports "not coalesced" on this reachable state,
confirming that the claim states the intended invariant. -/
theorem c1_adjacent_free_blocks_reachable :
    c1s1.1 = some 16 ∧ c1s2.1 = some 16 ∧ c1s3.1 = some 64 ∧
    GET_ALLOC c1s4.mem (HDRP 16) = 0 ∧ GET_SIZE c1s4.mem (HDRP 16) = 96 ∧
    NEXT_BLKP c1s4.mem 16 = 112 ∧
    GET_ALLOC c1s4.mem (HDRP 112) = 0 ∧ GET_SIZE c1s4.mem (HDRP 112) = 160 ∧
    NEXT_BLKP c1s4.mem 112 = c1s4.size ∧
    GET_SIZE c1s4.mem (HDRP c1s4.size) = 0 ∧ GET_ALLOC c1s4.mem (HDRP c1s4.size) = 1 ∧
    "not coalesced" ∈ checkblock c1s4 16 ∧
    "not coalesced" ∈ mm_checkheap 50 c1s4 := by
  refine ⟨by decide, by decide, by decide, by decide, by decide, by decide, by decide,
    by decide, by decide, by decide, by decide, by decide, by decide⟩

end MallocMe
